import Mathlib

/-!
# Verification of the Japanese word-frequency viewer core (`app.py`)

Shallow embedding of the data-loading and filtering logic of `app.py`:
`load_data` (CSV load, rank assignment, known-vocabulary join) and the
`update_table` callback (substring filter, count string, highlight toggle).

Modelling conventions:
* The frequency CSV is modelled by the list of values of its `word` column,
  in file order; a missing (NaN) cell is `none`.
* File contents are modelled as lists of lines; a missing file is `none`.
* Python `None` arguments are `Option.none`; a raised exception is
  `Except.error ()`.
* `pandas.Series.str.contains(pat, case=False, na=False)` interprets `pat`
  as a regular expression with `re.IGNORECASE` and maps missing values to
  `False`.  The regex fragment actually exercised by the claims — literal
  characters and the metacharacter `.` — is modelled exactly; every other
  regex metacharacter is modelled as a compile error.  This matches CPython
  `re` for unbalanced `(`, `)`, `[` and a trailing backslash, and
  over-approximates errors for the remaining metacharacters; no theorem
  below evaluates the model on one of the over-approximated patterns.
-/

namespace JapFreq

/-- One row of the in-memory table built by `load_data`: the columns
`Rank`, `word`, `in_wk` kept by `return df[['Rank', 'word', 'in_wk']]`. -/
structure WordRecord where
  Rank : Nat
  word : Option String
  in_wk : Bool
  deriving DecidableEq

/-! ## Data loader (`load_data`, app.py lines 62-79) -/

/-- Python `str.strip()`: remove leading and trailing whitespace
(including the `'\n'` each file line carries). -/
def strip (s : String) : String :=
  ⟨((s.toList.dropWhile Char.isWhitespace).reverse.dropWhile
      Char.isWhitespace).reverse⟩

/-- `set(line.strip() for line in f)` when the vocabulary file is present,
`wk_vocab = set()` when `open` raises `FileNotFoundError`.  The set is
modelled by a list used only through membership.  Note the comprehension
strips every line but drops none: a blank line contributes `""`. -/
def wk_vocab : Option (List String) → List String
  | none => []
  | some lines => lines.map strip

/-- `df['word'].isin(wk_vocab)` for one cell: a missing (NaN) word is never
a member; a present word is looked up in the set. -/
def isKnown (wkv : List String) : Option String → Bool
  | none => false
  | some w => wkv.contains w

/-- `df['Rank'] = range(1, len(df) + 1)` together with the `in_wk` join:
rank `r` is given to the head and ranks increase by one down the list. -/
def buildRows (wkv : List String) : Nat → List (Option String) → List WordRecord
  | _, [] => []
  | r, w :: ws => ⟨r, w, isKnown wkv w⟩ :: buildRows wkv (r + 1) ws

/-- `load_data` after `pd.read_csv` succeeded: `words` is the `word`
column in file order, `vocabFile` the lines of `wk_vocab.txt` (or `none`
when that file is absent). -/
def load_data (words : List (Option String)) (vocabFile : Option (List String)) :
    List WordRecord :=
  buildRows (wk_vocab vocabFile) 1 words

/-- Module-level `df = load_data()` including the frequency-file read:
`pd.read_csv` raises `FileNotFoundError` when the file is absent, and no
handler catches it, so startup fails before any table exists. -/
def load_data_from (freqFile : Option (List (Option String)))
    (vocabFile : Option (List String)) : Except Unit (List WordRecord) :=
  match freqFile with
  | none => .error ()
  | some words => .ok (load_data words vocabFile)

/-! ## Regex model for `str.contains` (app.py line 198) -/

/-- A compiled pattern token: a literal character (stored case-folded,
for `case=False` / `re.IGNORECASE`) or the `.` wildcard. -/
inductive RTok where
  | lit : Char → RTok
  | dot : RTok
  deriving DecidableEq

/-- The characters that are special in Python regular expressions
(the set escaped by `re.escape`, restricted to ASCII punctuation). -/
def regexMeta : List Char :=
  ['.', '^', '$', '*', '+', '?', '\x7b', '\x7d', '[', ']', '\\', '|', '(', ')']

/-- `s` contains no regex metacharacter, so `re` treats it literally. -/
def metaFree (s : String) : Bool :=
  s.toList.all fun c => !regexMeta.contains c

/-- Compile a pattern, as `re.compile` does for the modelled fragment:
`.` becomes the wildcard, an ordinary character becomes a (case-folded)
literal, and any other metacharacter is a compile error (`re.error`). -/
def compileChars : List Char → Except Unit (List RTok)
  | [] => .ok []
  | c :: cs =>
    if c = '.' then
      match compileChars cs with
      | .error e => .error e
      | .ok ts => .ok (.dot :: ts)
    else if regexMeta.contains c then .error ()
    else
      match compileChars cs with
      | .error e => .error e
      | .ok ts => .ok (.lit c.toLower :: ts)

/-- One token against one input character (input folded for IGNORECASE). -/
def tokMatches : RTok → Char → Bool
  | .lit l, c => l == c.toLower
  | .dot, _ => true

/-- The whole token list matches a prefix of the input. -/
def matchHere : List RTok → List Char → Bool
  | [], _ => true
  | _ :: _, [] => false
  | t :: ts, c :: cs => tokMatches t c && matchHere ts cs

/-- `re.search`: the token list matches at some position of the input. -/
def reSearch : List RTok → List Char → Bool
  | ts, [] => matchHere ts []
  | ts, c :: cs => matchHere ts (c :: cs) || reSearch ts cs

/-- `str.contains(..., na=False)` for one cell of the `word` column:
NaN is `False`, otherwise the compiled pattern is searched in the word. -/
def rowMatches (ts : List RTok) (r : WordRecord) : Bool :=
  match r.word with
  | none => false
  | some w => reSearch ts w.toList

/-! ## Filter callback (`update_table`, app.py lines 194-206) -/

/-- Lines 195-199: `if not search_term: filtered_df = df` else build the
`str.contains(search_term, case=False, na=False)` mask and select by it.
An invalid pattern propagates the `re.error` raised inside `str.contains`. -/
def filter_rows (df : List WordRecord) : Option String → Except Unit (List WordRecord)
  | none => .ok df
  | some s =>
    if s = "" then .ok df
    else
      match compileChars s.toList with
      | .error e => .error e
      | .ok ts => .ok (df.filter (rowMatches ts))

/-- `not show_wk or 'show' not in show_wk` under Python short-circuiting:
`None` and `[]` are falsy, otherwise membership of `'show'` decides. -/
def highlightDisabled : Option (List String) → Bool
  | none => true
  | some l => l.isEmpty || !l.contains "show"

/-- Python's thousands-separator format `f"{n:,}"`: the value modulo 1000
printed zero-padded to three digits for every non-leading group. -/
def pad3 (n : Nat) : String :=
  if n < 10 then "00" ++ toString n
  else if n < 100 then "0" ++ toString n
  else toString n

/-- Fuel-indexed body of the `,` format; the fuel only bounds the number
of thousand-groups and is never exhausted when it starts at `n`, since a
number with `d+1` groups is at least `1000^d ≥ d`. -/
def formatCommaAux : Nat → Nat → String
  | 0, n => toString n
  | fuel + 1, n =>
    if n < 1000 then toString n
    else formatCommaAux fuel (n / 1000) ++ "," ++ pad3 (n % 1000)

/-- `f"{n:,}"` for a natural number: digits grouped by thousands. -/
def formatComma (n : Nat) : String := formatCommaAux n n

/-- The callback `update_table(search_term, show_wk)` over an explicit
table `df`.  A raised exception is `.error`; otherwise the result is the
Python return value: `some (rows, countString)` from the explicit
`return` in the highlight-disabled branch, and `none` (Python `None`)
from the implicit fall-through when highlighting is enabled. -/
def update_table (df : List WordRecord) (search_term : Option String)
    (show_wk : Option (List String)) :
    Except Unit (Option (List WordRecord × String)) :=
  match filter_rows df search_term with
  | .error e => .error e
  | .ok filtered =>
    if highlightDisabled show_wk then
      .ok (some (filtered, "Showing " ++ formatComma filtered.length ++ " words"))
    else
      .ok none

/-! ## Specification-side definitions -/

/-- Case folding used to state case-insensitive containment. -/
def foldCase (s : String) : List Char := s.toList.map Char.toLower

/-- Spec-side predicate (§4.2 of the spec): `needle` occurs in `hay` as a
literal substring, compared case-insensitively. -/
def containsCI (needle hay : String) : Bool :=
  decide (foldCase needle <:+: foldCase hay)

/-- The row predicate the spec describes for a non-empty search term:
a row matches iff its word contains the term as a literal substring,
case-insensitively; a missing word does not match. -/
def specMatch (s : String) (r : WordRecord) : Bool :=
  match r.word with
  | none => false
  | some w => containsCI s w

/-! ## Helper lemmas -/

/-- Ranks assigned by `buildRows` starting at `r` are `r, r+1, ...`. -/
theorem buildRows_map_rank (wkv : List String) :
    ∀ (r : Nat) (ws : List (Option String)),
      (buildRows wkv r ws).map (fun rec => rec.Rank) = List.range' r ws.length
  | _, [] => rfl
  | r, w :: ws => by
    simp [buildRows, List.range'_succ, buildRows_map_rank wkv (r + 1) ws]

/-- With an empty vocabulary set, no word is known. -/
theorem isKnown_nil (w : Option String) : isKnown [] w = false := by
  cases w <;> rfl

/-- All rows built from the empty vocabulary set have `in_wk = false`. -/
theorem buildRows_nil_all_not_in_wk :
    ∀ (r : Nat) (ws : List (Option String)),
      ((buildRows [] r ws).all fun rec => !rec.in_wk) = true
  | _, [] => rfl
  | r, w :: ws => by
    simp [buildRows, isKnown_nil, buildRows_nil_all_not_in_wk (r + 1) ws]

/-- A metacharacter-free pattern compiles to its case-folded literals. -/
theorem compileChars_metaFree :
    ∀ cs : List Char, (cs.all fun c => !regexMeta.contains c) = true →
      compileChars cs = .ok (cs.map fun c => RTok.lit c.toLower)
  | [], _ => rfl
  | c :: cs, h => by
    simp only [List.all_cons, Bool.and_eq_true, Bool.not_eq_true'] at h
    have hdot : ¬(c = '.') := by
      intro hc
      rw [hc] at h
      simp [regexMeta] at h
    rw [compileChars, if_neg hdot, if_neg (by rw [h.1]; simp),
      compileChars_metaFree cs (by simp [List.all_eq_true] at h ⊢; exact h.2)]
    rfl

/-- An all-literal token list matches a prefix of `w` exactly when the
folded pattern is a prefix of the folded input. -/
theorem matchHere_lit_iff :
    ∀ (p w : List Char),
      matchHere (p.map fun c => RTok.lit c.toLower) w = true ↔
        p.map Char.toLower <+: w.map Char.toLower
  | [], w => by simp [matchHere]
  | c :: p, [] => by
    simp [matchHere]
  | c :: p, a :: w => by
    simp only [List.map_cons, matchHere, tokMatches, Bool.and_eq_true, beq_iff_eq,
      List.cons_prefix_cons, matchHere_lit_iff p w]

/-- An all-literal token list is found by `reSearch` in `w` exactly when
the folded pattern is an infix of the folded input. -/
theorem reSearch_lit_iff :
    ∀ (p w : List Char),
      reSearch (p.map fun c => RTok.lit c.toLower) w = true ↔
        p.map Char.toLower <:+: w.map Char.toLower
  | p, [] => by
    rw [reSearch, matchHere_lit_iff]
    simp
  | p, a :: w => by
    rw [reSearch, List.map_cons]
    simp only [Bool.or_eq_true, matchHere_lit_iff, reSearch_lit_iff p w]
    rw [List.infix_cons_iff]
    simp [List.map_cons]

/-- For a metacharacter-free (hence literal) pattern, the code's row
predicate agrees with the spec's case-insensitive-substring predicate. -/
theorem rowMatches_spec (s : String) (r : WordRecord) :
    rowMatches (s.toList.map fun c => RTok.lit c.toLower) r = specMatch s r := by
  rcases r with ⟨rank, w, k⟩
  cases w with
  | none => rfl
  | some w =>
    show reSearch _ w.toList = containsCI s w
    rw [Bool.eq_iff_iff, reSearch_lit_iff s.toList w.toList]
    unfold containsCI foldCase
    simp

/-- Lines 197-199 for a non-empty metacharacter-free search term: the
mask-and-select equals a stable filter by the spec's predicate. -/
theorem filter_rows_metaFree (df : List WordRecord) (s : String)
    (hne : s ≠ "") (hmf : metaFree s = true) :
    filter_rows df (some s) = .ok (df.filter (specMatch s)) := by
  rw [filter_rows, if_neg hne, compileChars_metaFree s.toList hmf]
  show Except.ok (df.filter (rowMatches (s.toList.map fun c => RTok.lit c.toLower))) =
    Except.ok (df.filter (specMatch s))
  rw [List.filter_congr fun x _ => rowMatches_spec s x]

/-- Whatever `filter_rows` returns is a sublist of the table. -/
theorem filter_rows_sublist (df : List WordRecord) (st : Option String)
    (res : List WordRecord) (h : filter_rows df st = .ok res) :
    res.Sublist df := by
  cases st with
  | none =>
    cases h
    exact List.Sublist.refl df
  | some s =>
    rw [filter_rows] at h
    by_cases hs : s = ""
    · rw [if_pos hs] at h
      cases h
      exact List.Sublist.refl df
    · rw [if_neg hs] at h
      cases hcc : compileChars s.toList with
      | error e => rw [hcc] at h; cases h
      | ok ts =>
        rw [hcc] at h
        cases h
        exact List.filter_sublist df

/-- `f"{n:,}"` contains a comma once `n` reaches 1000. -/
theorem formatComma_has_comma (n : Nat) (h : 1000 ≤ n) :
    ',' ∈ (formatComma n).toList := by
  obtain ⟨m, rfl⟩ : ∃ m, n = m + 1 := ⟨n - 1, by omega⟩
  show ',' ∈ (formatCommaAux (m + 1) (m + 1)).toList
  rw [formatCommaAux, if_neg (by omega)]
  show ',' ∈ (_ ++ "," ++ _).data
  simp [String.data_append]

/-! ## Claims -/

/-- C1: the claim says `update_table` returns the same rows and count for
both values of the highlight flag, and in particular returns something
when highlighting is enabled.  The code disagrees: the function only has
a `return` in the highlight-disabled branch and falls off the end
(Python `None`) whenever `'show' ∈ show_wk`, even though its own comment
announces an `in_wk`-clearing behavior and `result_data` is computed and
never used.  Evaluated at a concrete table: enabling the highlight flag
yields `None` where disabling it yields the rows and the count string. -/
theorem C1_highlight_enabled_returns_nothing :
    update_table [(⟨1, some "ab", false⟩ : WordRecord)] (some "a") (some ["show"]) =
      .ok none ∧
    update_table [(⟨1, some "ab", false⟩ : WordRecord)] (some "a") (some []) =
      .ok (some ([⟨1, some "ab", false⟩], "Showing 1 words")) :=
  ⟨rfl, rfl⟩

/-- C2 counterexample: the claim asserts literal-substring matching for
arbitrary search terms, naming `'.'` among them.  But `str.contains`
interprets the term as a regular expression: the term `"."` selects the
row whose word is `"ab"`, although `"ab"` does not contain the character
`'.'` as a literal substring. -/
theorem C2_counterexample :
    filter_rows [⟨1, some "ab", false⟩] (some ".") = .ok [⟨1, some "ab", false⟩] ∧
    containsCI "." "ab" = false :=
  ⟨rfl, rfl⟩

/-- C2 as amended: for every non-empty search term containing no regex
metacharacter, a row is kept by the filter iff its word contains the term
as a literal substring, case-insensitively (rows with a missing word are
dropped); terms containing metacharacters are interpreted as regular
expressions instead. -/
theorem C2_literal_substring_filter (df : List WordRecord) (s : String)
    (hne : s ≠ "") (hmf : metaFree s = true) :
    filter_rows df (some s) = .ok (df.filter (specMatch s)) :=
  filter_rows_metaFree df s hne hmf

/-- C2 witness: a mixed-case literal search on a concrete table. -/
theorem C2_witness :
    filter_rows [⟨1, some "Abc", true⟩, ⟨2, some "xyz", false⟩] (some "BC") =
      .ok [⟨1, some "Abc", true⟩] := by
  have h := C2_literal_substring_filter
    [⟨1, some "Abc", true⟩, ⟨2, some "xyz", false⟩] "BC" (by decide) (by decide)
  rw [h]
  rfl

/-- C3: an absent (`None`) or empty search term selects every row of the
table, in order, and the reported count string renders the full length of
the table. -/
theorem C3_empty_search_returns_all (df : List WordRecord) :
    filter_rows df none = .ok df ∧ filter_rows df (some "") = .ok df ∧
    update_table df none (some []) =
      .ok (some (df, "Showing " ++ formatComma df.length ++ " words")) :=
  ⟨rfl, by rw [filter_rows, if_pos rfl], rfl⟩

/-- C4: whenever `update_table` returns a result, the rows are exactly
the filtered rows, the count string renders the length of that very row
list (so the count equals the number of returned rows), and the rendered
number carries a thousands separator from 1000 on. -/
theorem C4_count_equals_rows (df : List WordRecord) (st : Option String)
    (swk : Option (List String)) (rows : List WordRecord) (msg : String)
    (h : update_table df st swk = .ok (some (rows, msg))) :
    filter_rows df st = .ok rows ∧
    msg = "Showing " ++ formatComma rows.length ++ " words" ∧
    (1000 ≤ rows.length → ',' ∈ msg.toList) := by
  rw [update_table] at h
  cases hf : filter_rows df st with
  | error e => rw [hf] at h; cases h
  | ok filtered =>
    rw [hf] at h
    replace h : (if highlightDisabled swk = true then
        Except.ok (some (filtered, "Showing " ++ formatComma filtered.length ++ " words"))
      else Except.ok none) = Except.ok (some (rows, msg)) := h
    by_cases hd : highlightDisabled swk = true
    · rw [if_pos hd] at h
      simp only [Except.ok.injEq, Option.some.injEq, Prod.mk.injEq] at h
      obtain ⟨h1, h2⟩ := h
      refine ⟨by rw [h1], by rw [← h2, h1], fun hlen => ?_⟩
      rw [← h2, h1]
      show ',' ∈ ("Showing " ++ formatComma rows.length ++ " words").data
      rw [String.data_append, String.data_append]
      exact List.mem_append.mpr (Or.inl (List.mem_append.mpr
        (Or.inr (formatComma_has_comma rows.length hlen))))
    · rw [if_neg hd] at h
      simp at h

/-- C4 witness: a one-row table with no search term. -/
theorem C4_witness :
    filter_rows [(⟨1, some "a", false⟩ : WordRecord)] none =
      .ok [⟨1, some "a", false⟩] ∧
    "Showing 1 words" =
      "Showing " ++ formatComma [(⟨1, some "a", false⟩ : WordRecord)].length ++ " words" ∧
    (1000 ≤ [(⟨1, some "a", false⟩ : WordRecord)].length →
      ',' ∈ "Showing 1 words".toList) :=
  C4_count_equals_rows [⟨1, some "a", false⟩] none none [⟨1, some "a", false⟩]
    "Showing 1 words" rfl

/-- C5: the rows produced by the filter are a sublist of the table — the
stable mask-and-select never reorders. -/
theorem C5_filter_is_sublist (df : List WordRecord) (st : Option String)
    (res : List WordRecord) (h : filter_rows df st = .ok res) :
    res.Sublist df :=
  filter_rows_sublist df st res h

/-- C5 witness: a matching one-row table. -/
theorem C5_witness :
    List.Sublist [(⟨1, some "ab", false⟩ : WordRecord)] [⟨1, some "ab", false⟩] :=
  C5_filter_is_sublist [⟨1, some "ab", false⟩] (some "ab") [⟨1, some "ab", false⟩] rfl

/-- C6: `df['Rank'] = range(1, len(df) + 1)` gives the rows of an N-row
file the ranks `1, 2, ..., N` in file order — contiguous, gap-free and
repeat-free, whatever the vocabulary file contains. -/
theorem C6_ranks_are_one_to_n (words : List (Option String))
    (vocabFile : Option (List String)) :
    (load_data words vocabFile).map (fun rec => rec.Rank) =
      List.range' 1 words.length :=
  buildRows_map_rank (wk_vocab vocabFile) 1 words

/-- C7: with the vocabulary file absent (`FileNotFoundError` caught,
`wk_vocab = set()`), loading still succeeds and every row has
`in_wk = false`. -/
theorem C7_missing_vocab_all_unknown (words : List (Option String)) :
    load_data_from (some words) none = .ok (load_data words none) ∧
    ((load_data words none).all fun rec => !rec.in_wk) = true :=
  ⟨rfl, buildRows_nil_all_not_in_wk 1 words⟩

/-- C8 counterexample: the claim says blank lines are ignored and the set
holds no empty string, but `set(line.strip() for line in f)` filters
nothing: a blank line contributes `""` to the set. -/
theorem C8_counterexample : "" ∈ wk_vocab (some ["abc", ""]) := by decide

/-- C8 as amended: each line is trimmed before being added, and the set
contains exactly the trimmed lines — a blank line is not ignored but
contributes the empty string. -/
theorem C8_vocab_is_trimmed_lines (lines : List String) (x : String) :
    x ∈ wk_vocab (some lines) ↔ ∃ l ∈ lines, strip l = x := by
  simp [wk_vocab]

/-- C9: a missing frequency file makes the loader fail (`pd.read_csv`
raises, nothing catches it): no table is ever produced.  Since the module
level `df = load_data()` runs at import, before the callback is ever
registered, the failure precedes any filter call. -/
theorem C9_missing_freq_is_fatal (vocabFile : Option (List String)) :
    load_data_from none vocabFile = .error () :=
  rfl

/-- C10 counterexample: the claim asserts the filter never raises for any
non-empty search term whenever the table has a NaN word.  With the term
`"("` the regex compilation raises (`re.error`, unterminated group)
before `na=False` can apply, so the operation fails. -/
theorem C10_counterexample :
    filter_rows [⟨1, none, false⟩] (some "(") = .error () :=
  rfl

/-- C10 as amended: for every non-empty search term free of regex
metacharacters the filter succeeds, a row with a missing (NaN) word is
excluded from the result (`na=False`), and an absent search term still
returns the whole table, that row included. -/
theorem C10_nan_row_excluded (df : List WordRecord) (s : String) (r : WordRecord)
    (hne : s ≠ "") (hmf : metaFree s = true) (hw : r.word = none) :
    (∃ res, filter_rows df (some s) = .ok res ∧ r ∉ res) ∧
    filter_rows df none = .ok df := by
  refine ⟨⟨df.filter (specMatch s), filter_rows_metaFree df s hne hmf, ?_⟩, rfl⟩
  intro hmem
  have hsm : specMatch s r = true := (List.mem_filter.mp hmem).2
  rw [specMatch, hw] at hsm
  cases hsm

/-- C10 witness: a table whose only row has a missing word. -/
theorem C10_witness :
    ((∃ res, filter_rows [(⟨1, none, false⟩ : WordRecord)] (some "a") = .ok res ∧
        (⟨1, none, false⟩ : WordRecord) ∉ res) ∧
      filter_rows [(⟨1, none, false⟩ : WordRecord)] none =
        .ok [(⟨1, none, false⟩ : WordRecord)]) :=
  C10_nan_row_excluded [⟨1, none, false⟩] "a" ⟨1, none, false⟩ (by decide)
    (by decide) rfl

end JapFreq
